import Mathlib

/-!
Verification of the compiler orchestration in gulp-tsc's lib/compiler.js.

The development shallowly embeds the code:

* a posix path model (NPath) with resolve / relative / normalize / dirname
  translated from Node's path module as the code uses it;
* the option-merging constructor (mkOptions, lines 18-60);
* buildTscArguments (lines 63-99);
* makeTreeKeeperFile (lines 158-181);
* the compile waterfall with safe-mode handling (lines 105-137) and the
  runTsc exit-code handling (lines 192-216);
* the output relocation pipeline: fixOutputFilePath / filterOutput
  (lines 245-302) and fixSourcemapPath (lines 304-324);
* the process-wide lifecycle registry (lines 353-386).

JavaScript strings the code treats as paths are embedded as NPath (an
absolute flag plus a list of path segments); all other strings stay
String.  String helpers (jsToLower, strStartsWith, ...) are
character-level re-implementations so that every definition evaluates
inside the kernel.
-/

namespace GulpTsc

/-! ## Character-level string helpers -/

/-- Lower-casing of a JS string (String.prototype.toLowerCase for ASCII). -/
def jsToLower (s : String) : String := ⟨s.data.map Char.toLower⟩

/-- Upper-casing of a JS string (String.prototype.toUpperCase for ASCII). -/
def jsToUpper (s : String) : String := ⟨s.data.map Char.toUpper⟩

/-- Whether the string s starts with p, character by character. -/
def strStartsWith (s p : String) : Bool := p.data.isPrefixOf s.data

/-- Whether the string s ends with p, character by character. -/
def strEndsWith (s p : String) : Bool := p.data.isSuffixOf s.data

/-- The character count of a JS string. -/
def strLen (s : String) : Nat := s.data.length

/-- Drop the first n characters of a JS string (String.prototype.substr). -/
def strDrop (s : String) (n : Nat) : String := ⟨s.data.drop n⟩

/-- Split a character list at a separator character. -/
def splitOnCharAux (c : Char) : List Char → List Char → List String
  | [], acc => [⟨acc.reverse⟩]
  | a :: rest, acc =>
    if a = c then ⟨acc.reverse⟩ :: splitOnCharAux c rest []
    else splitOnCharAux c rest (a :: acc)

/-- Split a string on the path separator, keeping empty pieces. -/
def splitPathString (s : String) : List String := splitOnCharAux '/' s.data []

/-- Join segments with the path separator. -/
def intercalateSlash : List String → String
  | [] => ""
  | [s] => s
  | s :: t :: rest => s ++ "/" ++ intercalateSlash (t :: rest)

/-! ## The posix path model

A path is an absolute flag plus a list of segments.  resolveSegs is the
segment-level core of path.resolve: fold the segments over an (already
absolute, already normalized) accumulator, where a dot-dot segment pops,
a dot or empty segment is ignored, and everything else is appended. -/

structure NPath where
  abs : Bool
  segs : List String
deriving DecidableEq

/-- One path.resolve step on an absolute, normalized accumulator. -/
def stepSeg (acc : List String) (s : String) : List String :=
  if s = ".." then acc.dropLast
  else if s = "." ∨ s = "" then acc
  else acc ++ [s]

/-- Fold all segments of a path over an accumulator (posix resolution
against an absolute base: dot-dot above the root is clamped). -/
def resolveSegs (acc : List String) (p : List String) : List String :=
  p.foldl stepSeg acc

/-- Model of path.resolve(base, p); base is assumed absolute (every call
site in the code resolves against an absolute directory). -/
def resolveP (base p : NPath) : NPath :=
  if p.abs then ⟨true, resolveSegs [] p.segs⟩
  else ⟨base.abs, resolveSegs (resolveSegs [] base.segs) p.segs⟩

/-- Strip the common prefix of two segment lists (the core of
path.relative). -/
def stripCommon : List String → List String → List String × List String
  | a :: as, b :: bs => if a = b then stripCommon as bs else (a :: as, b :: bs)
  | as, bs => (as, bs)

/-- Relative segment list from src to dst (both absolute, normalized):
one dot-dot per remaining segment of src, then the remaining dst. -/
def relSegs (src dst : List String) : List String :=
  let p := stripCommon src dst
  List.replicate p.1.length ".." ++ p.2

/-- Model of path.relative(a, b) (both arguments absolute, as at every
call site in the code). -/
def relativeP (a b : NPath) : NPath :=
  ⟨false, relSegs (resolveSegs [] a.segs) (resolveSegs [] b.segs)⟩

/-- Model of path.dirname. -/
def dirnameP (p : NPath) : NPath := ⟨p.abs, p.segs.dropLast⟩

/-- Embed a JS path string into the model: absolute iff it starts with the
separator, with empty segments dropped (dot and dot-dot segments are kept
and interpreted by resolution). -/
def parsePath (s : String) : NPath :=
  ⟨strStartsWith s "/", (splitPathString s).filter (fun x => x ≠ "")⟩

/-- Render a model path back to the JS string. -/
def render (p : NPath) : String :=
  (if p.abs then "/" else "") ++ intercalateSlash p.segs

/-- A normalized segment list: no dot-dot, dot or empty segments. -/
def Good (l : List String) : Prop := ∀ s ∈ l, s ≠ ".." ∧ s ≠ "." ∧ s ≠ ""

instance (l : List String) : Decidable (Good l) := List.decidableBAll _ l

/-- One step of path.normalize on a relative path: leading dot-dot
segments are kept, a dot-dot after a real segment pops it. -/
def normStep (acc : List String) (s : String) : List String :=
  if s = "." ∨ s = "" then acc
  else if s = ".." then
    (match acc.getLast? with
     | some t => if t = ".." then acc ++ [".."] else acc.dropLast
     | none => [".."])
  else acc ++ [s]

/-- Segment-level path.normalize for relative paths. -/
def normalizeRelSegs (p : List String) : List String := p.foldl normStep []

/-- Model of posix path.normalize on a key string, string for string: a
leading separator marks an absolute path (whose dot-dot segments are
clamped), a trailing separator of the input is preserved on the output,
and an empty normalization yields a dot (or a bare separator when
absolute). -/
def normalizeKeyStr (k : String) : String :=
  let isAbs := strStartsWith k "/"
  let trail := strEndsWith k "/"
  let segs := if isAbs then resolveSegs [] (splitPathString k)
    else normalizeRelSegs (splitPathString k)
  if segs = [] then (if isAbs then "/" else (if trail then "./" else "."))
  else ((if isAbs then "/" else "") ++ intercalateSlash segs) ++ (if trail then "/" else "")

/-- Path segments as they occur in real JS path strings: non-empty and
free of the separator character. -/
def NiceSegs (l : List String) : Prop := ∀ s ∈ l, s ≠ "" ∧ '/' ∉ s.data

instance (l : List String) : Decidable (NiceSegs l) := List.decidableBAll _ l

/-! ## Options and the constructor (compiler.js lines 18-60) -/

/-- JS truthiness of an optional string: present and non-empty. -/
def truthyS : Option String → Bool
  | some s => s ≠ ""
  | none => false

/-- A source file descriptor (a vinyl file as consumed by the compiler:
its path and its base directory). -/
structure SourceFile where
  path : NPath
  base : NPath
deriving DecidableEq

/-- The caller-supplied options object; none marks an absent key. -/
structure UserOptions where
  module : Option String := none
  target : Option String := none
  out : Option String := none
  outDir : Option String := none
  mapRoot : Option String := none
  sourceRoot : Option String := none
  allowbool : Option Bool := none
  allowimportmodule : Option Bool := none
  declaration : Option Bool := none
  noImplicitAny : Option Bool := none
  noResolve : Option Bool := none
  removeComments : Option Bool := none
  sourceMap : Option Bool := none
  sourcemap : Option Bool := none
  suppressImplicitAnyIndexErrors : Option Bool := none
  tmpDir : Option String := none
  noLib : Option Bool := none
  keepTree : Option Bool := none
  safe : Option Bool := none
  emitDecoratorMetadata : Option Bool := none

/-- The merged options record held in this.options after the constructor
ran.  The deleted sourcemap key is modelled by the field being false. -/
structure TscOptions where
  module : Option String
  target : Option String
  out : Option String
  outDir : Option String
  mapRoot : Option String
  sourceRoot : Option String
  allowbool : Bool
  allowimportmodule : Bool
  declaration : Bool
  noImplicitAny : Bool
  noResolve : Bool
  removeComments : Bool
  sourceMap : Bool
  sourcemap : Bool
  suppressImplicitAnyIndexErrors : Bool
  tmpDir : String
  noLib : Bool
  keepTree : Bool
  safe : Bool
  emitDecoratorMetadata : Bool
deriving DecidableEq

/-- The Compiler constructor's option handling (lines 23-50): the lodash
extend of the defaults with the user options, the target-dependent module
default, the sourceMap-or-sourcemap normalization and the deletion of the
sourcemap key. -/
def mkOptions (u : UserOptions) : TscOptions :=
  let defaultModule : Option String :=
    if u.target = some "ES6" then none else some "commonjs"
  { module := match u.module with
      | some m => some m
      | none => defaultModule
    target := some (u.target.getD "ES3")
    out := u.out
    outDir := u.outDir
    mapRoot := u.mapRoot
    sourceRoot := u.sourceRoot
    allowbool := u.allowbool.getD false
    allowimportmodule := u.allowimportmodule.getD false
    declaration := u.declaration.getD false
    noImplicitAny := u.noImplicitAny.getD false
    noResolve := u.noResolve.getD false
    removeComments := u.removeComments.getD false
    sourceMap := (u.sourceMap.getD false) || (u.sourcemap.getD false)
    sourcemap := false
    suppressImplicitAnyIndexErrors := u.suppressImplicitAnyIndexErrors.getD false
    tmpDir := u.tmpDir.getD ""
    noLib := u.noLib.getD false
    keepTree := u.keepTree.getD true
    safe := u.safe.getD false
    emitDecoratorMetadata := u.emitDecoratorMetadata.getD false }

/-! ## buildTscArguments (lines 63-99) -/

/-- A conditional flag push: if (cond) args.push(flag). -/
def boolFlag (b : Bool) (flag : String) : List String :=
  if b then [flag] else []

/-- A conditional flag-with-value push from a string option. -/
def strFlagMap (flag : String) (f : String → String) (v : Option String) : List String :=
  if truthyS v then [flag, f (v.getD "")] else []

/-- Model of Compiler.prototype.buildTscArguments(version).  The instance
state it reads (this.tempDestination, this.treeKeeperFile,
this.sourceFiles) is passed explicitly. -/
def buildTscArguments (o : TscOptions) (version : Option String)
    (tempDestination : Option NPath) (treeKeeperFile : Option NPath)
    (sourceFiles : List SourceFile) : List String :=
  let v := version.getD "1.5"
  strFlagMap "--module" jsToLower o.module
  ++ strFlagMap "--target" jsToUpper o.target
  ++ strFlagMap "--mapRoot" id o.mapRoot
  ++ strFlagMap "--sourceRoot" id o.sourceRoot
  ++ boolFlag o.allowbool "--allowbool"
  ++ boolFlag o.allowimportmodule "--allowimportmodule"
  ++ boolFlag (o.suppressImplicitAnyIndexErrors && v == "1.5") "--suppressImplicitAnyIndexErrors"
  ++ boolFlag o.declaration "--declaration"
  ++ boolFlag o.noImplicitAny "--noImplicitAny"
  ++ boolFlag o.noResolve "--noResolve"
  ++ boolFlag o.removeComments "--removeComments"
  ++ boolFlag o.sourceMap "--sourcemap"
  ++ boolFlag o.noLib "--noLib"
  ++ boolFlag o.emitDecoratorMetadata "--emitDecoratorMetadata"
  ++ (match tempDestination with
      | some td =>
        ["--outDir", render td]
        ++ (if truthyS o.out then ["--out", render (resolveP td (parsePath (o.out.getD "")))] else [])
      | none => if truthyS o.out then ["--out", o.out.getD ""] else [])
  ++ sourceFiles.map (fun f => render f.path)
  ++ (treeKeeperFile.map render).toList

/-- All flag strings buildTscArguments may emit, each under the condition
the code emits it. -/
def emittedFlags (o : TscOptions) (v : String) (tempDestination : Option NPath) : List String :=
  (if truthyS o.module then ["--module"] else [])
  ++ (if truthyS o.target then ["--target"] else [])
  ++ (if truthyS o.mapRoot then ["--mapRoot"] else [])
  ++ (if truthyS o.sourceRoot then ["--sourceRoot"] else [])
  ++ (if o.allowbool then ["--allowbool"] else [])
  ++ (if o.allowimportmodule then ["--allowimportmodule"] else [])
  ++ (if o.suppressImplicitAnyIndexErrors && v == "1.5" then ["--suppressImplicitAnyIndexErrors"] else [])
  ++ (if o.declaration then ["--declaration"] else [])
  ++ (if o.noImplicitAny then ["--noImplicitAny"] else [])
  ++ (if o.noResolve then ["--noResolve"] else [])
  ++ (if o.removeComments then ["--removeComments"] else [])
  ++ (if o.sourceMap then ["--sourcemap"] else [])
  ++ (if o.noLib then ["--noLib"] else [])
  ++ (if o.emitDecoratorMetadata then ["--emitDecoratorMetadata"] else [])
  ++ (if tempDestination.isSome then ["--outDir"] else [])
  ++ (if truthyS o.out then ["--out"] else [])

/-- All non-flag strings buildTscArguments may emit: option values, output
paths, source file paths and the tree keeper path. -/
def argValueStrings (o : TscOptions) (tempDestination : Option NPath)
    (treeKeeperFile : Option NPath) (sourceFiles : List SourceFile) : List String :=
  (if truthyS o.module then [jsToLower (o.module.getD "")] else [])
  ++ (if truthyS o.target then [jsToUpper (o.target.getD "")] else [])
  ++ (if truthyS o.mapRoot then [o.mapRoot.getD ""] else [])
  ++ (if truthyS o.sourceRoot then [o.sourceRoot.getD ""] else [])
  ++ (match tempDestination with
      | some td =>
        [render td]
        ++ (if truthyS o.out then [render (resolveP td (parsePath (o.out.getD "")))] else [])
      | none => if truthyS o.out then [o.out.getD ""] else [])
  ++ sourceFiles.map (fun f => render f.path)
  ++ (treeKeeperFile.map render).toList

/-- The argument list as a list of (flag part, value part) segments, one
per args.push site of buildTscArguments. -/
def segPairs (o : TscOptions) (v : String) (tempDestination : Option NPath)
    (treeKeeperFile : Option NPath) (sourceFiles : List SourceFile) :
    List (List String × List String) :=
  [ (if truthyS o.module then (["--module"], [jsToLower (o.module.getD "")]) else ([], []))
  , (if truthyS o.target then (["--target"], [jsToUpper (o.target.getD "")]) else ([], []))
  , (if truthyS o.mapRoot then (["--mapRoot"], [o.mapRoot.getD ""]) else ([], []))
  , (if truthyS o.sourceRoot then (["--sourceRoot"], [o.sourceRoot.getD ""]) else ([], []))
  , (if o.allowbool then (["--allowbool"], []) else ([], []))
  , (if o.allowimportmodule then (["--allowimportmodule"], []) else ([], []))
  , (if o.suppressImplicitAnyIndexErrors && v == "1.5" then
      (["--suppressImplicitAnyIndexErrors"], []) else ([], []))
  , (if o.declaration then (["--declaration"], []) else ([], []))
  , (if o.noImplicitAny then (["--noImplicitAny"], []) else ([], []))
  , (if o.noResolve then (["--noResolve"], []) else ([], []))
  , (if o.removeComments then (["--removeComments"], []) else ([], []))
  , (if o.sourceMap then (["--sourcemap"], []) else ([], []))
  , (if o.noLib then (["--noLib"], []) else ([], []))
  , (if o.emitDecoratorMetadata then (["--emitDecoratorMetadata"], []) else ([], []))
  , (match tempDestination with
     | some td => (["--outDir"], [render td])
     | none => ([], []))
  , (match tempDestination with
     | some td =>
       if truthyS o.out then (["--out"], [render (resolveP td (parsePath (o.out.getD "")))])
       else ([], [])
     | none => if truthyS o.out then (["--out"], [o.out.getD ""]) else ([], []))
  , (([] : List String), sourceFiles.map (fun f => render f.path))
  , (([] : List String), (treeKeeperFile.map render).toList) ]

/-- Flatten segment pairs in order. -/
def flattenPairs (l : List (List String × List String)) : List String :=
  (l.map (fun p => p.1 ++ p.2)).flatten

/-- The first fourteen push groups of buildTscArguments (everything before
the output destination handling), for stating where the destination
arguments sit inside the list. -/
def flagArgsPrefix (o : TscOptions) (v : String) : List String :=
  strFlagMap "--module" jsToLower o.module
  ++ strFlagMap "--target" jsToUpper o.target
  ++ strFlagMap "--mapRoot" id o.mapRoot
  ++ strFlagMap "--sourceRoot" id o.sourceRoot
  ++ boolFlag o.allowbool "--allowbool"
  ++ boolFlag o.allowimportmodule "--allowimportmodule"
  ++ boolFlag (o.suppressImplicitAnyIndexErrors && v == "1.5") "--suppressImplicitAnyIndexErrors"
  ++ boolFlag o.declaration "--declaration"
  ++ boolFlag o.noImplicitAny "--noImplicitAny"
  ++ boolFlag o.noResolve "--noResolve"
  ++ boolFlag o.removeComments "--removeComments"
  ++ boolFlag o.sourceMap "--sourcemap"
  ++ boolFlag o.noLib "--noLib"
  ++ boolFlag o.emitDecoratorMetadata "--emitDecoratorMetadata"

/-- Per option: its JS truthiness and the flag it would emit; an unset
option is one whose truthiness is false. -/
def unsetFlagTable (o : TscOptions) : List (Bool × String) :=
  [ (truthyS o.module, "--module"), (truthyS o.target, "--target"),
    (truthyS o.mapRoot, "--mapRoot"), (truthyS o.sourceRoot, "--sourceRoot"),
    (o.allowbool, "--allowbool"), (o.allowimportmodule, "--allowimportmodule"),
    (o.suppressImplicitAnyIndexErrors, "--suppressImplicitAnyIndexErrors"),
    (o.declaration, "--declaration"), (o.noImplicitAny, "--noImplicitAny"),
    (o.noResolve, "--noResolve"), (o.removeComments, "--removeComments"),
    (o.sourceMap, "--sourcemap"), (o.noLib, "--noLib"),
    (o.emitDecoratorMetadata, "--emitDecoratorMetadata"), (truthyS o.out, "--out") ]

/-! ## The compile waterfall (lines 105-137) and runTsc (lines 192-216) -/

/-- The errors the compile pipeline can produce. -/
inductive CompErr where
  | aborted
  | tempDirFailed (msg : String)
  | treeKeeperFailed (msg : String)
  | argFileFailed (msg : String)
  | tscExit (code : Nat)
  | outputFailed (msg : String)
deriving DecidableEq

/-- Model of Compiler.prototype.checkAborted. -/
def checkAbortedRes (aborted : Bool) : Option CompErr :=
  if aborted then some .aborted else none

/-- The runTsc exit handler (lines 198-204): a non-zero exit code becomes
an error carrying the code. -/
def runTscResult (code : Nat) : Option CompErr :=
  if code ≠ 0 then some (.tscExit code) else none

/-- One invocation's environment: the abort flag and the outcome of each
I/O stage, letting the waterfall be computed as a pure function. -/
structure CompileEnv where
  aborted : Bool
  tempDirRes : Option CompErr
  treeKeeperRes : Option CompErr
  argFileRes : Option CompErr
  tscExitCode : Nat
  outputRes : Option CompErr
deriving DecidableEq

/-- The async.waterfall of compile (lines 112-122): the first stage error,
in stage order, with checkAborted between stages. -/
def waterfallRes (env : CompileEnv) : Option CompErr :=
  checkAbortedRes env.aborted <|> env.tempDirRes
  <|> checkAbortedRes env.aborted <|> env.treeKeeperRes
  <|> checkAbortedRes env.aborted <|> env.argFileRes
  <|> checkAbortedRes env.aborted <|> runTscResult env.tscExitCode
  <|> checkAbortedRes env.aborted

/-- The compile completion handler (lines 122-130): in safe mode an error
skips processOutputFiles; otherwise processOutputFiles runs and the
callback receives the first error (the JS expression err or err2).
Returns (whether processOutputFiles ran, the callback error). -/
def compileModel (safe : Bool) (env : CompileEnv) : Bool × Option CompErr :=
  let err := waterfallRes env
  if err.isSome && safe then (false, err)
  else (true, err <|> env.outputRes)

/-! ## makeTreeKeeperFile (lines 158-181) -/

/-- The result of makeTreeKeeperFile: the stored placeholder path and the
error passed to the callback, if any. -/
structure TKOutcome where
  treeKeeperFile : Option NPath
  callbackErr : Option String
deriving DecidableEq

/-- The error message built at lines 166-169. -/
def treeKeeperHintMessage (e : String) : String :=
  "Failed to create a temporary file on source directory: " ++ e
    ++ ", To skip creating it specify \x7b keepTree: false \x7d to your gulp-tsc."

/-- Model of Compiler.prototype.makeTreeKeeperFile.  The temp.open call is
a function of the directory it is given (the first source file's base);
the write of the placeholder content is an outcome parameter. -/
def makeTreeKeeperFile (keepTree : Bool) (out : Option String)
    (sourceFiles : List SourceFile) (tempOpen : NPath → Except String NPath)
    (writeRes : Except String Unit) : TKOutcome :=
  if !keepTree || truthyS out || decide (sourceFiles.length = 0) then ⟨none, none⟩
  else
    match sourceFiles with
    | [] => ⟨none, none⟩
    | f :: _ =>
      match tempOpen f.base with
      | .error e => ⟨none, some (treeKeeperHintMessage e)⟩
      | .ok p =>
        match writeRes with
        | .error e => ⟨some p, some e⟩
        | .ok _ => ⟨some p, none⟩

/-! ## The lifecycle registry (lines 353-386)

Callbacks are identified by numbers; each operation returns the new
registry state together with the list of callbacks fired by it. -/

structure Registry where
  running : Nat
  aborted : Bool
  queue : List Nat
deriving DecidableEq

/-- Model of Compiler.abortAll. -/
def allAborted (s : Registry) : Registry × List Nat :=
  (⟨s.running, false, []⟩, s.queue)

/-- Model of Compiler.abortAll(callback). -/
def abortAll (cb : Option Nat) (s : Registry) : Registry × List Nat :=
  let s1 : Registry := ⟨s.running, true, s.queue ++ cb.toList⟩
  if s1.running = 0 then allAborted s1 else (s1, [])

/-- Model of Compiler.isAborted. -/
def isAborted (s : Registry) : Bool := s.aborted

/-- The running counter increment in Compiler.start (line 370). -/
def startInvocation (s : Registry) : Registry := ⟨s.running + 1, s.aborted, s.queue⟩

/-- The end-event handler registered by Compiler.start (lines 371-376):
decrement, and drain if this was the last running invocation while the
abort flag is set. -/
def endInvocation (s : Registry) : Registry × List Nat :=
  let s1 : Registry := ⟨s.running - 1, s.aborted, s.queue⟩
  if s1.running = 0 && s1.aborted then allAborted s1 else (s1, [])

/-! ## Output relocation and path filters (lines 245-302) -/

/-- A vinyl file as the output pipeline sees it. -/
structure VFile where
  base : NPath
  path : NPath
  originalPath : Option NPath
deriving DecidableEq

/-- The vinyl relative getter: file.path relative to file.base. -/
def vrelative (f : VFile) : NPath := relativeP f.base f.path

/-- The value a function-valued path filter can return, as discriminated
by filterOutput: true, false, undefined, a string, an object (pathTruthy
records the truthiness of its path property), or anything else. -/
inductive FilterRet where
  | rTrue
  | rFalse
  | rUndef
  | rStr (s : String)
  | rObj (pathTruthy : Bool) (o : VFile)
  | rOther

/-- The shapes this.options.pathFilter can take: a function, a plain
mapping object (keys in iteration order, values that are strings are
some), or anything else. -/
inductive PathFilter where
  | fn (g : NPath → VFile → FilterRet)
  | mapping (entries : List (String × Option String))
  | other

/-- The lodash forOwn loop of filterOutput's mapping case (lines 289-297):
for the first string-valued key such that src = normalize(key) + sep is a
string prefix of file.relative, set file.path to
resolve(file.base, value, file.relative.substr(src.length) or dot). -/
def objFilterLoop (f : VFile) : List (String × Option String) → VFile
  | [] => f
  | (k, v) :: rest =>
    match v with
    | some repl =>
      let src := normalizeKeyStr k ++ "/"
      if strStartsWith (render (vrelative f)) src then
        let restStr := strDrop (render (vrelative f)) (strLen src)
        let restStr2 := if restStr = "" then "." else restStr
        { f with path := resolveP (resolveP f.base (parsePath repl)) (parsePath restStr2) }
      else objFilterLoop f rest
    | none => objFilterLoop f rest

/-- Whether one mapping entry matches the relative path of a file: its
value is a string and its normalized key plus separator is a string
prefix of the rendered relative path. -/
def entryMatches (rel : NPath) (e : String × Option String) : Bool :=
  e.2.isSome && strStartsWith (render rel) (normalizeKeyStr e.1 ++ "/")

/-- Model of Compiler.prototype.filterOutput (lines 270-302), for a file
that reached it (so the filter is set). -/
def filterOutput (filt : PathFilter) (f : VFile) : Except String (Option VFile) :=
  match filt with
  | .fn g =>
    match g (vrelative f) f with
    | .rTrue => .ok (some f)
    | .rUndef => .ok (some f)
    | .rFalse => .ok none
    | .rStr s => .ok (some { f with path := resolveP f.base (parsePath s) })
    | .rObj true o => .ok (some o)
    | .rObj false _ => .error "Unknown return value from pathFilter function"
    | .rOther => .error "Unknown return value from pathFilter function"
  | .mapping entries => .ok (some (objFilterLoop f entries))
  | .other => .error "Unknown type for pathFilter"

/-- The outDir computation of fixOutputFilePath (lines 247-252). -/
def outputRoot (o : TscOptions) (cwd tempDestination : NPath) : NPath :=
  if truthyS o.outDir then resolveP cwd (parsePath (o.outDir.getD "")) else tempDestination

/-- The per-file relocation of fixOutputFilePath (lines 255-257): record
the original path, move the file under outDir keeping its relative path,
and rebase it to outDir. -/
def relocate (outDir : NPath) (f : VFile) : VFile :=
  { base := outDir, path := resolveP outDir (vrelative f), originalPath := some f.path }

/-- The whole fixOutputFilePath transform for one file (lines 254-267):
relocate, then apply the configured path filter if any. -/
def fixOutputFile (outDir : NPath) (filt : Option PathFilter) (f : VFile) :
    Except String (Option VFile) :=
  let f1 := relocate outDir f
  match filt with
  | some pf => filterOutput pf f1
  | none => .ok (some f1)

/-! ## fixSourcemapPath (lines 304-324) and the pipeline stages -/

/-- A source map artifact as fixSourcemapPath sees it: its (already
relocated) path, its original path, whether its contents are a buffer,
and the sources array of the parsed map. -/
structure MapFile where
  path : NPath
  originalPath : NPath
  isBuffer : Bool
  sources : List NPath
deriving DecidableEq

/-- The unanchored regex test for a dot-js-dot-map path (line 306). -/
def jsMapTest (p : NPath) : Bool := decide (".js.map".data <:+: (render p).data)

/-- Model of the per-file transform of fixSourcemapPath: for a buffer
whose path matches, rewrite every sources entry by resolving it against
the original location's directory and re-relativizing against the new
location's directory. -/
def fixSourcemapFile (f : MapFile) : MapFile :=
  if !f.isBuffer || !jsMapTest f.path then f
  else if 0 < f.sources.length then
    { f with sources := f.sources.map (fun s =>
        relativeP (dirnameP f.path) (resolveP (dirnameP f.originalPath) s)) }
  else f

/-- The three rewrite stages processOutputFiles can pipe (lines 227-233). -/
inductive Stage where
  | fixOutput
  | fixSourcemap
  | fixReference
deriving DecidableEq

/-- Which stages processOutputFiles builds, in order (lines 227-233). -/
def pipelineStages (o : TscOptions) : List Stage :=
  [Stage.fixOutput]
  ++ (if o.sourceMap && !truthyS o.sourceRoot then [Stage.fixSourcemap] else [])
  ++ (if o.declaration && truthyS o.outDir then [Stage.fixReference] else [])

/-! # Theorems

First the path lemmas, then the argument-list lemmas, then one theorem
per specification claim. -/

theorem resolveSegs_append (acc : List String) (u v : List String) :
    resolveSegs acc (u ++ v) = resolveSegs (resolveSegs acc u) v := by
  simp [resolveSegs, List.foldl_append]

theorem resolveSegs_good (p : List String) (hp : Good p) (acc : List String) :
    resolveSegs acc p = acc ++ p := by
  induction p generalizing acc with
  | nil => simp [resolveSegs]
  | cons s rest ih =>
    obtain ⟨h1, h2, h3⟩ := hp s (List.mem_cons_self s rest)
    have hrest : Good rest := fun t ht => hp t (List.mem_cons_of_mem s ht)
    show resolveSegs (stepSeg acc s) rest = acc ++ s :: rest
    rw [stepSeg, if_neg h1, if_neg (by simp [h2, h3]), ih hrest]
    simp

theorem good_dropLast (l : List String) (h : Good l) : Good l.dropLast :=
  fun s hs => h s (List.dropLast_subset l hs)

theorem good_resolveSegs (p : List String) (acc : List String) (h : Good acc) :
    Good (resolveSegs acc p) := by
  induction p generalizing acc with
  | nil => exact h
  | cons s rest ih =>
    show Good (resolveSegs (stepSeg acc s) rest)
    apply ih
    unfold stepSeg
    split
    · exact good_dropLast acc h
    · split
      · exact h
      · rename_i h1 h2
        intro t ht
        rcases List.mem_append.1 ht with h3 | h3
        · exact h t h3
        · simp only [List.mem_singleton] at h3
          subst h3
          exact ⟨h1, fun he => h2 (Or.inl he), fun he => h2 (Or.inr he)⟩

theorem resolveSegs_replicate_up :
    ∀ (n : ℕ) (l c : List String), l.length = n →
      resolveSegs (c ++ l) (List.replicate n "..") = c := by
  intro n
  induction n with
  | zero =>
    intro l c hl
    rw [List.length_eq_zero.1 hl]
    simp [resolveSegs]
  | succ n ih =>
    intro l c hl
    have hne : l ≠ [] := by
      intro h; rw [h] at hl; simp at hl
    rw [List.replicate_succ]
    show resolveSegs (stepSeg (c ++ l) "..") (List.replicate n "..") = c
    rw [stepSeg, if_pos rfl, List.dropLast_append_of_ne_nil c hne]
    exact ih l.dropLast c (by rw [List.length_dropLast, hl]; rfl)

theorem stripCommon_spec :
    ∀ (a b : List String), ∃ c, a = c ++ (stripCommon a b).1 ∧ b = c ++ (stripCommon a b).2 := by
  intro a
  induction a with
  | nil => intro b; exact ⟨[], by simp [stripCommon], by cases b <;> simp [stripCommon]⟩
  | cons x as ih =>
    intro b
    cases b with
    | nil => exact ⟨[], by simp [stripCommon], by simp [stripCommon]⟩
    | cons y bs =>
      by_cases h : x = y
      · obtain ⟨c, h1, h2⟩ := ih bs
        refine ⟨x :: c, ?_, ?_⟩
        · simp [stripCommon, h, ← h1]
        · simp [stripCommon, h, ← h2]
      · exact ⟨[], by simp [stripCommon, h], by simp [stripCommon, h]⟩

theorem good_of_append_right {c t : List String} (h : Good (c ++ t)) : Good t :=
  fun s hs => h s (List.mem_append.2 (Or.inr hs))

theorem resolveSegs_relSegs (a b : List String) (hb : Good b) :
    resolveSegs a (relSegs a b) = b := by
  obtain ⟨c, h1, h2⟩ := stripCommon_spec a b
  rw [relSegs]
  rw [resolveSegs_append]
  set f := (stripCommon a b).1
  set t := (stripCommon a b).2
  conv_lhs => rw [h1]
  rw [resolveSegs_replicate_up f.length f c rfl]
  rw [resolveSegs_good t (good_of_append_right (h2 ▸ hb)) c, ← h2]

theorem resolveSegs_good_nil (l : List String) (h : Good l) :
    resolveSegs [] l = l := by
  rw [resolveSegs_good l h []]; rfl

theorem resolveP_abs (d p : NPath) (hd : d.abs = true) : (resolveP d p).abs = true := by
  rw [resolveP]
  split <;> simp [hd]

theorem resolveP_good (d p : NPath) : Good (resolveP d p).segs := by
  rw [resolveP]
  split
  · exact good_resolveSegs _ _ (by intro s hs; cases hs)
  · exact good_resolveSegs _ _ (good_resolveSegs _ _ (by intro s hs; cases hs))

/-- Round trip: resolving, against an absolute normalized directory d, the
path of t expressed relative to d, gives back t. -/
theorem resolveP_relativeP (d t : NPath) (hd : d.abs = true) (hgd : Good d.segs)
    (ht : t.abs = true) (hgt : Good t.segs) :
    resolveP d (relativeP d t) = t := by
  rw [relativeP, resolveP]
  simp only
  rw [if_neg (by simp)]
  rw [resolveSegs_good_nil d.segs hgd, resolveSegs_good_nil t.segs hgt]
  rw [resolveSegs_relSegs d.segs t.segs hgt]
  cases t
  simp_all

theorem good_dirnameP (p : NPath) (h : Good p.segs) : Good (dirnameP p).segs :=
  good_dropLast _ h

theorem stripCommon_append (l x : List String) : stripCommon l (l ++ x) = ([], x) := by
  induction l with
  | nil => cases x <;> simp [stripCommon]
  | cons a as ih => simp [stripCommon, ih]

/-- Resolving against b and re-relativizing against b yields the extra
segments at the segment level. -/
theorem relSegs_append (b x : List String) : relSegs b (b ++ x) = x := by
  rw [relSegs, stripCommon_append]
  simp

theorem mem_ite_nil {c : Prop} [Decidable c] {l : List String} {s : String} :
    (s ∈ if c then l else []) ↔ c ∧ s ∈ l := by
  by_cases h : c <;> simp [h]

theorem mem_flattenPairs {s : String} {l : List (List String × List String)}
    (h : s ∈ flattenPairs l) :
    s ∈ (l.map Prod.fst).flatten ∨ s ∈ (l.map Prod.snd).flatten := by
  induction l with
  | nil => simp [flattenPairs] at h
  | cons p rest ih =>
    simp only [flattenPairs, List.map_cons, List.flatten_cons, List.mem_append] at h ⊢
    rcases h with (h | h) | h
    · exact Or.inl (Or.inl h)
    · exact Or.inr (Or.inl h)
    · rcases ih h with h' | h'
      · exact Or.inl (Or.inr h')
      · exact Or.inr (Or.inr h')

theorem ite_pair_fst {c : Prop} [Decidable c] (p q : List String × List String) :
    (if c then p else q).1 = if c then p.1 else q.1 := by
  split <;> rfl

theorem ite_pair_snd {c : Prop} [Decidable c] (p q : List String × List String) :
    (if c then p else q).2 = if c then p.2 else q.2 := by
  split <;> rfl

theorem ite_pair_flat {c : Prop} [Decidable c] (p q : List String × List String) :
    (if c then p else q).1 ++ (if c then p else q).2
      = if c then p.1 ++ p.2 else q.1 ++ q.2 := by
  split <;> rfl

theorem buildTscArguments_eq_flatten (o : TscOptions) (version : Option String)
    (tempDestination : Option NPath) (treeKeeperFile : Option NPath)
    (sourceFiles : List SourceFile) :
    buildTscArguments o version tempDestination treeKeeperFile sourceFiles
      = flattenPairs (segPairs o (version.getD "1.5") tempDestination treeKeeperFile sourceFiles) := by
  cases tempDestination <;>
    simp [buildTscArguments, flattenPairs, segPairs, strFlagMap, boolFlag,
      ite_pair_flat, apply_ite (fun l : List String => l ++ ([] : List String))]

theorem emittedFlags_eq_flatten (o : TscOptions) (v : String)
    (tempDestination : Option NPath) (treeKeeperFile : Option NPath)
    (sourceFiles : List SourceFile) :
    emittedFlags o v tempDestination
      = ((segPairs o v tempDestination treeKeeperFile sourceFiles).map Prod.fst).flatten := by
  cases tempDestination <;>
    simp [emittedFlags, segPairs, ite_pair_fst]

theorem argValueStrings_eq_flatten (o : TscOptions) (v : String)
    (tempDestination : Option NPath) (treeKeeperFile : Option NPath)
    (sourceFiles : List SourceFile) :
    argValueStrings o tempDestination treeKeeperFile sourceFiles
      = ((segPairs o v tempDestination treeKeeperFile sourceFiles).map Prod.snd).flatten := by
  cases tempDestination <;>
    simp [argValueStrings, segPairs, ite_pair_snd]

/-- Every argument is either an (enabled) flag or a value string. -/
theorem mem_buildTscArguments_cases (o : TscOptions) (version : Option String)
    (tempDestination : Option NPath) (treeKeeperFile : Option NPath)
    (sourceFiles : List SourceFile) (s : String)
    (h : s ∈ buildTscArguments o version tempDestination treeKeeperFile sourceFiles) :
    s ∈ emittedFlags o (version.getD "1.5") tempDestination
      ∨ s ∈ argValueStrings o tempDestination treeKeeperFile sourceFiles := by
  rw [buildTscArguments_eq_flatten o version tempDestination treeKeeperFile sourceFiles] at h
  rcases mem_flattenPairs h with h' | h'
  · exact Or.inl (by
      rw [emittedFlags_eq_flatten o (version.getD "1.5") tempDestination treeKeeperFile sourceFiles]
      exact h')
  · exact Or.inr (by
      rw [argValueStrings_eq_flatten o (version.getD "1.5") tempDestination treeKeeperFile
        sourceFiles]
      exact h')

theorem flag_not_mem (o : TscOptions) (version : Option String)
    (tempDestination : Option NPath) (treeKeeperFile : Option NPath)
    (sourceFiles : List SourceFile) (flag : String)
    (hsw : strStartsWith flag "--" = true)
    (hclean : ∀ s ∈ argValueStrings o tempDestination treeKeeperFile sourceFiles,
      strStartsWith s "--" = false)
    (hnot : flag ∉ emittedFlags o (version.getD "1.5") tempDestination) :
    flag ∉ buildTscArguments o version tempDestination treeKeeperFile sourceFiles := by
  intro h
  rcases mem_buildTscArguments_cases o version tempDestination treeKeeperFile sourceFiles flag h
    with h1 | h2
  · exact hnot h1
  · rw [hclean flag h2] at hsw
    cases hsw

theorem good_append {a b : List String} (ha : Good a) (hb : Good b) : Good (a ++ b) := by
  intro s hs
  rcases List.mem_append.1 hs with h | h
  · exact ha s h
  · exact hb s h

theorem good_drop {l : List String} (n : ℕ) (h : Good l) : Good (l.drop n) :=
  fun s hs => h s (List.drop_subset n l hs)

theorem mem_zip_map_self {α β : Type} (g : α → β) :
    ∀ (l : List α) (p : β × α), p ∈ (l.map g).zip l → p.1 = g p.2 ∧ p.2 ∈ l := by
  intro l
  induction l with
  | nil => intro p hp; simp at hp
  | cons a as ih =>
    intro p hp
    simp only [List.map_cons, List.zip_cons_cons, List.mem_cons] at hp
    rcases hp with rfl | hp
    · exact ⟨rfl, List.mem_cons_self a as⟩
    · obtain ⟨h1, h2⟩ := ih p hp
      exact ⟨h1, List.mem_cons_of_mem a h2⟩

theorem strData_append (s t : String) : (s ++ t).data = s.data ++ t.data := by
  simp

/-- Splitting a character list that holds no separator yields one piece. -/
theorem splitOnCharAux_no_sep (c : Char) :
    ∀ (l acc : List Char), c ∉ l → splitOnCharAux c l acc = [⟨acc.reverse ++ l⟩] := by
  intro l
  induction l with
  | nil => intro acc _; simp [splitOnCharAux]
  | cons a rest ih =>
    intro acc h
    have hne : ¬(a = c) := fun he => h (by rw [← he]; exact List.mem_cons_self a rest)
    rw [splitOnCharAux, if_neg hne, ih (a :: acc) (fun hm => h (List.mem_cons_of_mem a hm))]
    simp

/-- Splitting at the first separator emits the accumulated piece. -/
theorem splitOnCharAux_sep (c : Char) :
    ∀ (l1 l2 acc : List Char), c ∉ l1 →
      splitOnCharAux c (l1 ++ c :: l2) acc
        = ⟨acc.reverse ++ l1⟩ :: splitOnCharAux c l2 [] := by
  intro l1
  induction l1 with
  | nil =>
    intro l2 acc _
    rw [List.nil_append, splitOnCharAux, if_pos rfl]
    simp
  | cons a rest ih =>
    intro l2 acc h
    have hne : ¬(a = c) := fun he => h (by rw [← he]; exact List.mem_cons_self a rest)
    rw [List.cons_append, splitOnCharAux, if_neg hne,
      ih l2 (a :: acc) (fun hm => h (List.mem_cons_of_mem a hm))]
    simp

/-- Joining nice segments and re-splitting gives the segments back. -/
theorem splitPath_intercalate :
    ∀ (l : List String), NiceSegs l → l ≠ [] →
      splitPathString (intercalateSlash l) = l := by
  intro l
  induction l with
  | nil => intro _ h; exact absurd rfl h
  | cons s rest ih =>
    intro hn _
    cases rest with
    | nil =>
      obtain ⟨_, hs2⟩ := hn s (List.mem_cons_self s [])
      rw [show intercalateSlash [s] = s from rfl, splitPathString,
        splitOnCharAux_no_sep '/' s.data [] hs2]
      simp
    | cons t rest2 =>
      obtain ⟨_, hs2⟩ := hn s (List.mem_cons_self _ _)
      have hn2 : NiceSegs (t :: rest2) := fun x hx => hn x (List.mem_cons_of_mem s hx)
      rw [show intercalateSlash (s :: t :: rest2)
        = s ++ "/" ++ intercalateSlash (t :: rest2) from rfl, splitPathString]
      have hd : (s ++ "/" ++ intercalateSlash (t :: rest2)).data
          = s.data ++ '/' :: (intercalateSlash (t :: rest2)).data := by
        rw [strData_append, strData_append]
        simp
      rw [hd, splitOnCharAux_sep '/' s.data _ [] hs2]
      have hrest := ih hn2 (by simp)
      rw [splitPathString] at hrest
      rw [hrest]
      simp

/-- Joining an append of two non-empty segment lists. -/
theorem intercalate_append :
    ∀ (a : List String), a ≠ [] → ∀ (b : List String), b ≠ [] →
      intercalateSlash (a ++ b) = intercalateSlash a ++ "/" ++ intercalateSlash b := by
  intro a
  induction a with
  | nil => intro h; exact absurd rfl h
  | cons s rest ih =>
    intro _ b hb
    cases rest with
    | nil =>
      cases b with
      | nil => exact absurd rfl hb
      | cons t bs => rfl
    | cons t rest2 =>
      rw [show (s :: t :: rest2) ++ b = s :: ((t :: rest2) ++ b) from rfl,
        show intercalateSlash (s :: ((t :: rest2) ++ b))
          = s ++ "/" ++ intercalateSlash ((t :: rest2) ++ b) from by
            cases rest2 <;> rfl,
        ih (by simp) b hb,
        show intercalateSlash (s :: t :: rest2)
          = s ++ "/" ++ intercalateSlash (t :: rest2) from rfl]
      simp [String.append_assoc]

/-- The head character of a joined non-empty nice segment list comes from
the first segment. -/
theorem intercalate_head (s : String) (rest : List String) (hs1 : s ≠ "") :
    ∃ c cs, (intercalateSlash (s :: rest)).data = c :: cs ∧ c ∈ s.data := by
  obtain ⟨c, cs', hcd⟩ : ∃ c cs', s.data = c :: cs' := by
    cases hsd : s.data with
    | nil =>
      exfalso
      apply hs1
      cases s with
      | mk d => simp at hsd; rw [hsd]
    | cons c cs' => exact ⟨c, cs', rfl⟩
  cases rest with
  | nil =>
    exact ⟨c, cs', by rw [show intercalateSlash [s] = s from rfl, hcd],
      by rw [hcd]; exact List.mem_cons_self _ _⟩
  | cons t r2 =>
    refine ⟨c, cs' ++ '/' :: (intercalateSlash (t :: r2)).data, ?_, ?_⟩
    · rw [show intercalateSlash (s :: t :: r2)
        = s ++ "/" ++ intercalateSlash (t :: r2) from rfl,
        strData_append, strData_append, hcd]
      simp
    · rw [hcd]; exact List.mem_cons_self _ _

/-- A joined non-empty nice segment list is a non-empty string. -/
theorem intercalate_ne_empty (l : List String) (hn : NiceSegs l) (hne : l ≠ []) :
    intercalateSlash l ≠ "" := by
  cases l with
  | nil => exact absurd rfl hne
  | cons s rest =>
    obtain ⟨hs1, _⟩ := hn s (List.mem_cons_self _ _)
    obtain ⟨c, cs, hdata, _⟩ := intercalate_head s rest hs1
    intro h
    have := congrArg String.data h
    rw [hdata] at this
    simp at this

/-- A joined non-empty nice segment list does not start with the
separator. -/
theorem intercalate_not_abs (l : List String) (hn : NiceSegs l) (hne : l ≠ []) :
    strStartsWith (intercalateSlash l) "/" = false := by
  cases l with
  | nil => exact absurd rfl hne
  | cons s rest =>
    obtain ⟨hs1, hs2⟩ := hn s (List.mem_cons_self _ _)
    obtain ⟨c, cs, hdata, hcm⟩ := intercalate_head s rest hs1
    have hc : ¬('/' = c) := fun he => hs2 (he ▸ hcm)
    rw [strStartsWith, show ("/" : String).data = ['/'] from rfl, hdata]
    simp [List.isPrefixOf, hc]

/-- Entries that do not match are skipped by the forOwn loop. -/
theorem objFilterLoop_append_skip (f : VFile) (pre l : List (String × Option String))
    (h : ∀ e ∈ pre, entryMatches (vrelative f) e = false) :
    objFilterLoop f (pre ++ l) = objFilterLoop f l := by
  induction pre with
  | nil => rfl
  | cons e rest ih =>
    obtain ⟨k, v⟩ := e
    cases v with
    | none =>
      show objFilterLoop f ((k, none) :: (rest ++ l)) = objFilterLoop f l
      rw [objFilterLoop]
      exact ih (fun e he => h e (List.mem_cons_of_mem _ he))
    | some repl =>
      have hm := h (k, some repl) (List.mem_cons_self _ _)
      simp only [entryMatches, Option.isSome_some, Bool.true_and] at hm
      show objFilterLoop f ((k, some repl) :: (rest ++ l)) = objFilterLoop f l
      rw [objFilterLoop]
      simp only
      rw [if_neg (by simp [hm])]
      exact ih (fun e he => h e (List.mem_cons_of_mem _ he))

/-! ## Claim theorems -/

/-- **C1**: for every invocation whose external compiler process exits
with a non-zero code, the completion callback receives a process-failure
error carrying that exit code; when safe is not set, processOutputFiles
still runs before completion, and when safe is set it is skipped. -/
theorem compile_processFailure_spec (env : CompileEnv) (safe : Bool)
    (hab : env.aborted = false) (h1 : env.tempDirRes = none)
    (h2 : env.treeKeeperRes = none) (h3 : env.argFileRes = none)
    (hc : env.tscExitCode ≠ 0) :
    (compileModel safe env).2 = some (CompErr.tscExit env.tscExitCode)
    ∧ (compileModel safe env).1 = !safe := by
  have hw : waterfallRes env = some (.tscExit env.tscExitCode) := by
    simp [waterfallRes, checkAbortedRes, runTscResult, hab, h1, h2, h3, hc]
  refine ⟨?_, ?_⟩ <;> cases safe <;> simp [compileModel, hw]

/-- Witness for C1: exit code 2, all earlier stages clean. -/
theorem compile_processFailure_witness :
    (CompileEnv.mk false none none none 2 none).aborted = false
    ∧ (compileModel true (CompileEnv.mk false none none none 2 none)).2
        = some (CompErr.tscExit 2)
    ∧ (compileModel true (CompileEnv.mk false none none none 2 none)).1 = false
    ∧ (compileModel false (CompileEnv.mk false none none none 2 none)).2
        = some (CompErr.tscExit 2)
    ∧ (compileModel false (CompileEnv.mk false none none none 2 none)).1 = true :=
  ⟨rfl,
   (compile_processFailure_spec _ true rfl rfl rfl rfl (by decide)).1,
   (compile_processFailure_spec _ true rfl rfl rfl rfl (by decide)).2,
   (compile_processFailure_spec _ false rfl rfl rfl rfl (by decide)).1,
   (compile_processFailure_spec _ false rfl rfl rfl rfl (by decide)).2⟩

/-- **C4**: makeTreeKeeperFile creates no placeholder and succeeds exactly
when keepTree is disabled, an explicit out is set, or there are no source
files; otherwise a failure to create the placeholder in the first source
file's base directory produces an error whose message suggests disabling
keepTree. -/
theorem makeTreeKeeperFile_spec (keepTree : Bool) (out : Option String)
    (sourceFiles : List SourceFile) (tempOpen : NPath → Except String NPath)
    (writeRes : Except String Unit) :
    (((makeTreeKeeperFile keepTree out sourceFiles tempOpen writeRes).treeKeeperFile = none
        ∧ (makeTreeKeeperFile keepTree out sourceFiles tempOpen writeRes).callbackErr = none)
      ↔ (keepTree = false ∨ truthyS out = true ∨ sourceFiles = []))
    ∧ (∀ f rest e, keepTree = true → truthyS out = false → sourceFiles = f :: rest →
        tempOpen f.base = .error e →
        (makeTreeKeeperFile keepTree out sourceFiles tempOpen writeRes).callbackErr
          = some (treeKeeperHintMessage e)
        ∧ ∃ a b, treeKeeperHintMessage e = a ++ "keepTree: false" ++ b) := by
  constructor
  · constructor
    · intro hpair
      by_cases hk : keepTree = false
      · exact Or.inl hk
      by_cases ho : truthyS out = true
      · exact Or.inr (Or.inl ho)
      cases hsf : sourceFiles with
      | nil => exact Or.inr (Or.inr rfl)
      | cons f rest =>
        exfalso
        have hk' : keepTree = true := by cases keepTree <;> simp_all
        have ho' : truthyS out = false := by cases h2 : truthyS out <;> simp_all
        rw [hsf] at hpair
        rcases hpair with ⟨htk, herr⟩
        cases hopen : tempOpen f.base with
        | error e => simp [makeTreeKeeperFile, hk', ho', hopen] at herr
        | ok p =>
          cases writeRes with
          | error e => simp [makeTreeKeeperFile, hk', ho', hopen] at herr
          | ok u => simp [makeTreeKeeperFile, hk', ho', hopen] at htk
    · intro h
      rcases h with hk | ho | hsf
      · simp [makeTreeKeeperFile, hk]
      · simp [makeTreeKeeperFile, ho]
      · subst hsf; simp [makeTreeKeeperFile]
  · intro f rest e hk ho hsf hopen
    subst hk
    subst hsf
    constructor
    · simp [makeTreeKeeperFile, ho, hopen]
    · refine ⟨"Failed to create a temporary file on source directory: " ++ e
        ++ ", To skip creating it specify \x7b ", " \x7d to your gulp-tsc.", ?_⟩
      simp [treeKeeperHintMessage, String.append_assoc]

/-- Witness for C4: skipped on keepTree disabled, on an out file and on an
empty source list; hard failure with the hint when temp.open fails. -/
theorem makeTreeKeeperFile_witness :
    ((makeTreeKeeperFile false none [SourceFile.mk (NPath.mk true ["s", "a.ts"]) (NPath.mk true ["s"])]
        (fun _ => Except.error "EACCES") (Except.ok ())).treeKeeperFile = none
      ∧ (makeTreeKeeperFile false none [SourceFile.mk (NPath.mk true ["s", "a.ts"]) (NPath.mk true ["s"])]
        (fun _ => Except.error "EACCES") (Except.ok ())).callbackErr = none)
    ∧ (makeTreeKeeperFile true none [SourceFile.mk (NPath.mk true ["s", "a.ts"]) (NPath.mk true ["s"])]
        (fun _ => Except.error "EACCES") (Except.ok ())).callbackErr
        = some (treeKeeperHintMessage "EACCES")
    ∧ ∃ a b, treeKeeperHintMessage "EACCES" = a ++ "keepTree: false" ++ b := by
  refine ⟨?_, ?_, ?_⟩
  · exact (makeTreeKeeperFile_spec false none _ (fun _ => Except.error "EACCES")
      (Except.ok ())).1.mpr (Or.inl rfl)
  · exact ((makeTreeKeeperFile_spec true none _ (fun _ => Except.error "EACCES")
      (Except.ok ())).2 _ [] "EACCES" rfl rfl rfl rfl).1
  · exact ((makeTreeKeeperFile_spec true none
      [SourceFile.mk (NPath.mk true ["s", "a.ts"]) (NPath.mk true ["s"])]
      (fun _ => Except.error "EACCES") (Except.ok ())).2 _ [] "EACCES" rfl rfl rfl rfl).2

/-- **C8**: abortAll sets the aborted flag; with no running invocation it
immediately fires all queued callbacks (including the one just added) and
resets the flag with an empty queue; with a positive counter the callback
is queued and fires exactly when the last end event drains, after which
the flag reads false for a freshly started invocation. -/
theorem registry_abort_spec (s : Registry) (cb : Nat) :
    (s.running = 0 →
      abortAll (some cb) s = (Registry.mk s.running false [], s.queue ++ [cb]))
    ∧ (s.running ≠ 0 →
      abortAll (some cb) s = (Registry.mk s.running true (s.queue ++ [cb]), []))
    ∧ (s.running = 1 →
      endInvocation (abortAll (some cb) s).1 = (Registry.mk 0 false [], s.queue ++ [cb])
      ∧ isAborted (startInvocation (endInvocation (abortAll (some cb) s).1).1) = false)
    ∧ (1 < s.running →
      endInvocation (abortAll (some cb) s).1
        = (Registry.mk (s.running - 1) true (s.queue ++ [cb]), [])) := by
  refine ⟨?_, ?_, ?_, ?_⟩
  · intro h
    simp [abortAll, allAborted, h]
  · intro h
    simp [abortAll, h]
  · intro h
    have h0 : s.running ≠ 0 := by omega
    constructor
    · simp [abortAll, endInvocation, allAborted, h0, h]
    · simp [abortAll, endInvocation, allAborted, startInvocation, isAborted, h0, h]
  · intro h
    have h0 : s.running ≠ 0 := by omega
    have h1 : ¬(s.running - 1 = 0) := by omega
    simp [abortAll, endInvocation, allAborted, h0, h1]

/-- Witness for C8: one invocation in flight, one queued callback. -/
theorem registry_abort_witness :
    (Registry.mk 1 false [7]).running = 1
    ∧ abortAll (some 9) (Registry.mk 1 false [7]) = (Registry.mk 1 true [7, 9], [])
    ∧ endInvocation (abortAll (some 9) (Registry.mk 1 false [7])).1
        = (Registry.mk 0 false [], [7, 9])
    ∧ isAborted (startInvocation
        (endInvocation (abortAll (some 9) (Registry.mk 1 false [7])).1).1) = false
    ∧ abortAll (some 9) (Registry.mk 0 false [7]) = (Registry.mk 0 false [], [7, 9]) :=
  ⟨rfl,
   (registry_abort_spec (Registry.mk 1 false [7]) 9).2.1 (by decide),
   ((registry_abort_spec (Registry.mk 1 false [7]) 9).2.2.1 rfl).1,
   ((registry_abort_spec (Registry.mk 1 false [7]) 9).2.2.1 rfl).2,
   (registry_abort_spec (Registry.mk 0 false [7]) 9).1 rfl⟩

/-- **C10**: the constructor stores sourceMap as the disjunction of the
two spellings and removes the lowercase key; either spelling alone makes
buildTscArguments emit the sourcemap flag and (absent a sourceRoot
override) enables the source-map rewriting stage. -/
theorem sourcemapSpelling_spec (u : UserOptions) (version : Option String)
    (tempDestination treeKeeperFile : Option NPath) (sourceFiles : List SourceFile) :
    ((mkOptions u).sourceMap = (u.sourceMap.getD false || u.sourcemap.getD false))
    ∧ ((mkOptions u).sourcemap = false)
    ∧ ((u.sourceMap.getD false || u.sourcemap.getD false) = true →
        "--sourcemap" ∈ buildTscArguments (mkOptions u) version tempDestination
          treeKeeperFile sourceFiles)
    ∧ (truthyS (mkOptions u).sourceRoot = false →
        (u.sourceMap.getD false || u.sourcemap.getD false) = true →
        Stage.fixSourcemap ∈ pipelineStages (mkOptions u)) := by
  refine ⟨rfl, rfl, ?_, ?_⟩
  · intro h
    cases tempDestination <;>
      simp [buildTscArguments, boolFlag, mkOptions, h]
  · intro hsr h
    simp only [mkOptions] at hsr ⊢
    simp [pipelineStages, h, hsr]

/-- **C2**: buildTscArguments emits no flag for an unset option; a
temporary destination forces the outDir flag followed by the temporary
path, with an explicit out resolved relative to it; without a temporary
destination an explicit out is passed unmodified; source paths are
appended in order followed by the placeholder path. -/
theorem buildTscArguments_spec (o : TscOptions) (version : Option String)
    (tempDestination treeKeeperFile : Option NPath) (sourceFiles : List SourceFile)
    (hclean : ∀ s ∈ argValueStrings o tempDestination treeKeeperFile sourceFiles,
      strStartsWith s "--" = false) :
    (∀ p ∈ unsetFlagTable o, p.1 = false →
      p.2 ∉ buildTscArguments o version tempDestination treeKeeperFile sourceFiles)
    ∧ (∀ t, tempDestination = some t →
        ["--outDir", render t]
          <:+: buildTscArguments o version tempDestination treeKeeperFile sourceFiles
        ∧ (truthyS o.out = true →
            ["--out", render (resolveP t (parsePath (o.out.getD "")))]
              <:+: buildTscArguments o version tempDestination treeKeeperFile sourceFiles))
    ∧ (tempDestination = none → truthyS o.out = true →
        ["--out", o.out.getD ""]
          <:+: buildTscArguments o version tempDestination treeKeeperFile sourceFiles)
    ∧ ((sourceFiles.map (fun f => render f.path) ++ (treeKeeperFile.map render).toList)
        <:+ buildTscArguments o version tempDestination treeKeeperFile sourceFiles) := by
  refine ⟨?_, ?_, ?_, ?_⟩
  · intro p hp hfl
    simp only [unsetFlagTable, List.mem_cons, List.not_mem_nil, or_false] at hp
    rcases hp with rfl | rfl | rfl | rfl | rfl | rfl | rfl | rfl | rfl | rfl | rfl | rfl | rfl
      | rfl | rfl <;>
      dsimp only at hfl ⊢ <;>
      (refine flag_not_mem o version tempDestination treeKeeperFile sourceFiles _
        (by decide) hclean ?_) <;>
      simp [emittedFlags, mem_ite_nil, hfl]
  · intro t ht
    subst ht
    constructor
    · exact ⟨flagArgsPrefix o (version.getD "1.5"),
        (if truthyS o.out then ["--out", render (resolveP t (parsePath (o.out.getD "")))] else [])
          ++ sourceFiles.map (fun f => render f.path) ++ (treeKeeperFile.map render).toList,
        by simp [buildTscArguments, flagArgsPrefix, List.append_assoc]⟩
    · intro hout
      exact ⟨flagArgsPrefix o (version.getD "1.5") ++ ["--outDir", render t],
        sourceFiles.map (fun f => render f.path) ++ (treeKeeperFile.map render).toList,
        by simp [buildTscArguments, flagArgsPrefix, hout, List.append_assoc]⟩
  · intro ht hout
    subst ht
    exact ⟨flagArgsPrefix o (version.getD "1.5"),
      sourceFiles.map (fun f => render f.path) ++ (treeKeeperFile.map render).toList,
      by simp [buildTscArguments, flagArgsPrefix, hout, List.append_assoc]⟩
  · cases tempDestination with
    | none =>
      exact ⟨flagArgsPrefix o (version.getD "1.5")
        ++ (if truthyS o.out then ["--out", o.out.getD ""] else []),
        by simp [buildTscArguments, flagArgsPrefix, List.append_assoc]⟩
    | some t =>
      exact ⟨flagArgsPrefix o (version.getD "1.5") ++ (["--outDir", render t]
        ++ (if truthyS o.out then ["--out", render (resolveP t (parsePath (o.out.getD "")))] else [])),
        by simp [buildTscArguments, flagArgsPrefix, List.append_assoc]⟩

/-- Witness for C2: an out file, a temporary destination, a placeholder
and one source file. -/
theorem buildTscArguments_spec_witness :
    (∀ s ∈ argValueStrings (mkOptions { out := some "bundle.js" })
        (some (NPath.mk true ["tmp", "x"])) (some (NPath.mk true ["s", "keep.ts"]))
        [SourceFile.mk (NPath.mk true ["s", "a.ts"]) (NPath.mk true ["s"])],
      strStartsWith s "--" = false)
    ∧ "--mapRoot" ∉ buildTscArguments (mkOptions { out := some "bundle.js" }) none
        (some (NPath.mk true ["tmp", "x"])) (some (NPath.mk true ["s", "keep.ts"]))
        [SourceFile.mk (NPath.mk true ["s", "a.ts"]) (NPath.mk true ["s"])]
    ∧ ["--outDir", render (NPath.mk true ["tmp", "x"])]
        <:+: buildTscArguments (mkOptions { out := some "bundle.js" }) none
          (some (NPath.mk true ["tmp", "x"])) (some (NPath.mk true ["s", "keep.ts"]))
          [SourceFile.mk (NPath.mk true ["s", "a.ts"]) (NPath.mk true ["s"])]
    ∧ ["--out", render (resolveP (NPath.mk true ["tmp", "x"]) (parsePath "bundle.js"))]
        <:+: buildTscArguments (mkOptions { out := some "bundle.js" }) none
          (some (NPath.mk true ["tmp", "x"])) (some (NPath.mk true ["s", "keep.ts"]))
          [SourceFile.mk (NPath.mk true ["s", "a.ts"]) (NPath.mk true ["s"])]
    ∧ ([SourceFile.mk (NPath.mk true ["s", "a.ts"]) (NPath.mk true ["s"])].map
          (fun f => render f.path)
        ++ ((some (NPath.mk true ["s", "keep.ts"])).map render).toList)
        <:+ buildTscArguments (mkOptions { out := some "bundle.js" }) none
          (some (NPath.mk true ["tmp", "x"])) (some (NPath.mk true ["s", "keep.ts"]))
          [SourceFile.mk (NPath.mk true ["s", "a.ts"]) (NPath.mk true ["s"])] := by
  have h := buildTscArguments_spec (mkOptions { out := some "bundle.js" }) none
    (some (NPath.mk true ["tmp", "x"])) (some (NPath.mk true ["s", "keep.ts"]))
    [SourceFile.mk (NPath.mk true ["s", "a.ts"]) (NPath.mk true ["s"])] (by decide)
  refine ⟨by decide, ?_, ?_, ?_, ?_⟩
  · exact h.1 (truthyS (mkOptions { out := some "bundle.js" }).mapRoot, "--mapRoot")
      (by simp [unsetFlagTable]) (by decide)
  · exact (h.2.1 _ rfl).1
  · exact (h.2.1 _ rfl).2 (by decide)
  · exact h.2.2.2

/-- **C3**: with suppressImplicitAnyIndexErrors set, the flag is emitted
exactly when the (undefined-defaulted) compiler version is the gated
version. -/
theorem suppressFlag_version_gate (o : TscOptions) (version : Option String)
    (tempDestination treeKeeperFile : Option NPath) (sourceFiles : List SourceFile)
    (hset : o.suppressImplicitAnyIndexErrors = true)
    (hclean : ∀ s ∈ argValueStrings o tempDestination treeKeeperFile sourceFiles,
      strStartsWith s "--" = false) :
    ("--suppressImplicitAnyIndexErrors"
        ∈ buildTscArguments o version tempDestination treeKeeperFile sourceFiles)
      ↔ version.getD "1.5" = "1.5" := by
  constructor
  · intro h
    rcases mem_buildTscArguments_cases o version tempDestination treeKeeperFile sourceFiles _ h
      with h1 | h2
    · simp [emittedFlags, mem_ite_nil, hset] at h1
      exact h1
    · have hc := hclean _ h2
      rw [show strStartsWith "--suppressImplicitAnyIndexErrors" "--" = true from by decide] at hc
      cases hc
  · intro hv
    cases tempDestination <;>
      simp [buildTscArguments, boolFlag, hset, hv]

/-- Witness for C3: flag present for an undefined version (defaulting to
the gated version), absent for a different version string. -/
theorem suppressFlag_version_gate_witness :
    (mkOptions { suppressImplicitAnyIndexErrors := some true }).suppressImplicitAnyIndexErrors
      = true
    ∧ "--suppressImplicitAnyIndexErrors"
        ∈ buildTscArguments (mkOptions { suppressImplicitAnyIndexErrors := some true })
            none none none []
    ∧ "--suppressImplicitAnyIndexErrors"
        ∉ buildTscArguments (mkOptions { suppressImplicitAnyIndexErrors := some true })
            (some "1.6") none none [] := by
  refine ⟨rfl, ?_, ?_⟩
  · exact (suppressFlag_version_gate (mkOptions { suppressImplicitAnyIndexErrors := some true })
      none none none [] rfl (by decide)).mpr rfl
  · intro h
    have := (suppressFlag_version_gate (mkOptions { suppressImplicitAnyIndexErrors := some true })
      (some "1.6") none none [] rfl (by decide)).mp h
    simp at this

/-- **C9**: the constructor defaults the module kind to commonjs unless
the target is ES6 (in which case no module flag is emitted when module is
unset); an explicitly supplied module kind is passed through lowercased. -/
theorem moduleDefault_spec (u : UserOptions) (version : Option String)
    (tempDestination treeKeeperFile : Option NPath) (sourceFiles : List SourceFile)
    (hclean : ∀ s ∈ argValueStrings (mkOptions u) tempDestination treeKeeperFile sourceFiles,
      strStartsWith s "--" = false) :
    (u.module = none →
      (mkOptions u).module = if u.target = some "ES6" then none else some "commonjs")
    ∧ (u.target = some "ES6" → u.module = none →
      "--module" ∉ buildTscArguments (mkOptions u) version tempDestination treeKeeperFile
        sourceFiles)
    ∧ (∀ m, u.module = some m → m ≠ "" →
      ["--module", jsToLower m]
        <+: buildTscArguments (mkOptions u) version tempDestination treeKeeperFile sourceFiles) := by
  refine ⟨?_, ?_, ?_⟩
  · intro hm
    simp [mkOptions, hm]
  · intro ht hm
    refine flag_not_mem (mkOptions u) version tempDestination treeKeeperFile sourceFiles _
      (by decide) hclean ?_
    have hfalse : truthyS (mkOptions u).module = false := by
      simp [mkOptions, hm, ht, truthyS]
    simp [emittedFlags, mem_ite_nil, hfalse]
  · intro m hm hne
    have hmod : (mkOptions u).module = some m := by simp [mkOptions, hm]
    cases tempDestination <;>
      simp [buildTscArguments, strFlagMap, hmod, truthyS, hne,
        List.cons_prefix_cons, List.nil_prefix]

/-- Witness for C9: an ES6 target with module unset emits no module flag;
an explicit module kind is lowercased at the front of the list. -/
theorem moduleDefault_spec_witness :
    ({ target := some "ES6" } : UserOptions).module = none
    ∧ (mkOptions { target := some "ES6" }).module = none
    ∧ "--module" ∉ buildTscArguments (mkOptions { target := some "ES6" }) none none none []
    ∧ ["--module", jsToLower "CommonJS"]
        <+: buildTscArguments (mkOptions { module := some "CommonJS" }) none none none [] := by
  refine ⟨rfl, ?_, ?_, ?_⟩
  · have := (moduleDefault_spec { target := some "ES6" } none none none [] (by decide)).1 rfl
    simpa using this
  · exact (moduleDefault_spec { target := some "ES6" } none none none [] (by decide)).2.1 rfl rfl
  · exact (moduleDefault_spec { module := some "CommonJS" } none none none [] (by decide)).2.2
      "CommonJS" rfl (by decide)

/-- **C5** (amended): through a function-valued path filter, true and
undefined keep the relocated artifact, false drops it, a string makes the
final path resolve(outputRoot, string), an object whose path property is
truthy replaces the artifact entirely, and every other return value —
including an object without a truthy path — aborts with the
filter-contract error. -/
theorem pathFilterFunction_spec (outDir : NPath) (g : NPath → VFile → FilterRet) (f : VFile) :
    (g (vrelative (relocate outDir f)) (relocate outDir f) = .rTrue →
      fixOutputFile outDir (some (.fn g)) f = .ok (some (relocate outDir f)))
    ∧ (g (vrelative (relocate outDir f)) (relocate outDir f) = .rUndef →
      fixOutputFile outDir (some (.fn g)) f = .ok (some (relocate outDir f)))
    ∧ (g (vrelative (relocate outDir f)) (relocate outDir f) = .rFalse →
      fixOutputFile outDir (some (.fn g)) f = .ok none)
    ∧ (∀ s, g (vrelative (relocate outDir f)) (relocate outDir f) = .rStr s →
      fixOutputFile outDir (some (.fn g)) f
        = .ok (some { relocate outDir f with path := resolveP outDir (parsePath s) }))
    ∧ (∀ ob, g (vrelative (relocate outDir f)) (relocate outDir f) = .rObj true ob →
      fixOutputFile outDir (some (.fn g)) f = .ok (some ob))
    ∧ (∀ ob, g (vrelative (relocate outDir f)) (relocate outDir f) = .rObj false ob →
      fixOutputFile outDir (some (.fn g)) f
        = .error "Unknown return value from pathFilter function")
    ∧ (g (vrelative (relocate outDir f)) (relocate outDir f) = .rOther →
      fixOutputFile outDir (some (.fn g)) f
        = .error "Unknown return value from pathFilter function") := by
  refine ⟨?_, ?_, ?_, ?_, ?_, ?_, ?_⟩
  · intro h; simp only [fixOutputFile, filterOutput]; rw [h]
  · intro h; simp only [fixOutputFile, filterOutput]; rw [h]
  · intro h; simp only [fixOutputFile, filterOutput]; rw [h]
  · intro s h
    simp only [fixOutputFile, filterOutput]
    rw [h]
    rfl
  · intro ob h; simp only [fixOutputFile, filterOutput]; rw [h]
  · intro ob h; simp only [fixOutputFile, filterOutput]; rw [h]
  · intro h; simp only [fixOutputFile, filterOutput]; rw [h]

/-- Counterexample to C5 as stated: a filter returning an object whose
path property is not truthy does not replace the artifact — the
invocation aborts with the filter-contract error instead. -/
theorem pathFilterFunction_object_counterexample :
    fixOutputFile (NPath.mk true ["o"])
      (some (PathFilter.fn (fun _ _ => FilterRet.rObj false
        (VFile.mk (NPath.mk true ["o"]) (NPath.mk true ["o", "b.js"]) none))))
      (VFile.mk (NPath.mk true ["tmp"]) (NPath.mk true ["tmp", "a.js"]) none)
      ≠ Except.ok (some (VFile.mk (NPath.mk true ["o"]) (NPath.mk true ["o", "b.js"]) none)) := by
  simp [fixOutputFile, filterOutput]

/-- Witness for C5: each return shape at a concrete artifact. -/
theorem pathFilterFunction_witness :
    ((fun (_ : NPath) (_ : VFile) => FilterRet.rStr "lib/x.js")
        (vrelative (relocate (NPath.mk true ["o"])
          (VFile.mk (NPath.mk true ["tmp"]) (NPath.mk true ["tmp", "a", "b.js"]) none)))
        (relocate (NPath.mk true ["o"])
          (VFile.mk (NPath.mk true ["tmp"]) (NPath.mk true ["tmp", "a", "b.js"]) none))
      = FilterRet.rStr "lib/x.js")
    ∧ fixOutputFile (NPath.mk true ["o"])
        (some (PathFilter.fn (fun _ _ => FilterRet.rStr "lib/x.js")))
        (VFile.mk (NPath.mk true ["tmp"]) (NPath.mk true ["tmp", "a", "b.js"]) none)
      = Except.ok (some { relocate (NPath.mk true ["o"])
          (VFile.mk (NPath.mk true ["tmp"]) (NPath.mk true ["tmp", "a", "b.js"]) none) with
          path := resolveP (NPath.mk true ["o"]) (parsePath "lib/x.js") })
    ∧ fixOutputFile (NPath.mk true ["o"])
        (some (PathFilter.fn (fun _ _ => FilterRet.rFalse)))
        (VFile.mk (NPath.mk true ["tmp"]) (NPath.mk true ["tmp", "a", "b.js"]) none)
      = Except.ok none
    ∧ fixOutputFile (NPath.mk true ["o"])
        (some (PathFilter.fn (fun _ _ => FilterRet.rTrue)))
        (VFile.mk (NPath.mk true ["tmp"]) (NPath.mk true ["tmp", "a", "b.js"]) none)
      = Except.ok (some (relocate (NPath.mk true ["o"])
          (VFile.mk (NPath.mk true ["tmp"]) (NPath.mk true ["tmp", "a", "b.js"]) none))) :=
  ⟨rfl,
   (pathFilterFunction_spec (NPath.mk true ["o"]) (fun _ _ => FilterRet.rStr "lib/x.js")
      (VFile.mk (NPath.mk true ["tmp"]) (NPath.mk true ["tmp", "a", "b.js"]) none)).2.2.2.1
      "lib/x.js" rfl,
   (pathFilterFunction_spec (NPath.mk true ["o"]) (fun _ _ => FilterRet.rFalse)
      (VFile.mk (NPath.mk true ["tmp"]) (NPath.mk true ["tmp", "a", "b.js"]) none)).2.2.1 rfl,
   (pathFilterFunction_spec (NPath.mk true ["o"]) (fun _ _ => FilterRet.rTrue)
      (VFile.mk (NPath.mk true ["tmp"]) (NPath.mk true ["tmp", "a", "b.js"]) none)).1 rfl⟩

/-- **C6**: a plain-object filter remaps the first configured key (in
iteration order) whose normalized form plus separator string-prefixes the
artifact's relative path, replacing the prefix by the mapped value, and
passes a non-matching artifact through unchanged. -/
theorem pathFilterMapping_spec (entries : List (String × Option String)) (f : VFile)
    (hab : f.base.abs = true) (hgb : Good f.base.segs) (hgr : Good (vrelative f).segs) :
    (filterOutput (.mapping entries) f = .ok (some (objFilterLoop f entries)))
    ∧ ((∀ e ∈ entries, entryMatches (vrelative f) e = false) →
        objFilterLoop f entries = f)
    ∧ (∀ pre k repl post ks, entries = pre ++ (k, some repl) :: post →
        (∀ e ∈ pre, entryMatches (vrelative f) e = false) →
        normalizeKeyStr k = intercalateSlash ks →
        NiceSegs ks → ks ≠ [] →
        ks <+: (vrelative f).segs → ks ≠ (vrelative f).segs →
        (parsePath repl).abs = false → Good (parsePath repl).segs →
        NiceSegs (vrelative f).segs →
        vrelative (objFilterLoop f entries)
          = NPath.mk false ((parsePath repl).segs
              ++ (vrelative f).segs.drop ks.length)) := by
  refine ⟨rfl, ?_, ?_⟩
  · intro h
    have := objFilterLoop_append_skip f entries [] h
    simpa using this
  · intro pre k repl post ks hent hpre hk hksn hksne hkpre hkne habs hgood hniceR
    subst hent
    rw [objFilterLoop_append_skip f pre _ hpre]
    obtain ⟨restSegs, hrs⟩ := hkpre
    have hrestne : restSegs ≠ [] := by
      intro h0
      apply hkne
      rw [← hrs, h0, List.append_nil]
    have hniceRest : NiceSegs restSegs := fun s hs =>
      hniceR s (by rw [← hrs]; exact List.mem_append.2 (Or.inr hs))
    have hgoodRest : Good restSegs := fun s hs =>
      hgr s (by rw [← hrs]; exact List.mem_append.2 (Or.inr hs))
    have hsegs : (vrelative f).segs = ks ++ restSegs := hrs.symm
    have hrender : render (vrelative f) = intercalateSlash (vrelative f).segs := by
      rw [render, show (vrelative f).abs = false from rfl]
      simp
    have hJ : intercalateSlash (vrelative f).segs
        = (intercalateSlash ks ++ "/") ++ intercalateSlash restSegs := by
      rw [hsegs, intercalate_append ks hksne restSegs hrestne]
    have hmatch : strStartsWith (render (vrelative f)) (normalizeKeyStr k ++ "/") = true := by
      rw [hrender, hJ, hk, strStartsWith]
      refine List.isPrefixOf_iff_prefix.mpr ?_
      rw [strData_append]
      exact List.prefix_append _ _
    rw [objFilterLoop]
    simp only
    rw [if_pos hmatch]
    have hdrop : strDrop (render (vrelative f)) (strLen (normalizeKeyStr k ++ "/"))
        = intercalateSlash restSegs := by
      rw [hrender, hJ, hk, strDrop, strLen,
        strData_append (intercalateSlash ks ++ "/") (intercalateSlash restSegs),
        List.drop_left]
    have hne2 : intercalateSlash restSegs ≠ "" :=
      intercalate_ne_empty restSegs hniceRest hrestne
    have hparse : parsePath (intercalateSlash restSegs) = NPath.mk false restSegs := by
      rw [parsePath]
      have h1 := intercalate_not_abs restSegs hniceRest hrestne
      have h2 := splitPath_intercalate restSegs hniceRest hrestne
      rw [h1, h2]
      congr 1
      exact List.filter_eq_self.mpr (fun s hs => by simp [(hniceRest s hs).1])
    rw [hdrop, if_neg hne2, hparse]
    have hdropsegs : (vrelative f).segs.drop ks.length = restSegs := by
      rw [hsegs]
      exact List.drop_left ks restSegs
    rw [hdropsegs]
    have hrb : resolveP f.base (parsePath repl)
        = NPath.mk true (f.base.segs ++ (parsePath repl).segs) := by
      rw [resolveP, if_neg (by simp [habs])]
      rw [resolveSegs_good_nil f.base.segs hgb, resolveSegs_good _ hgood, hab]
    have hrp : resolveP (resolveP f.base (parsePath repl)) (NPath.mk false restSegs)
        = NPath.mk true (f.base.segs ++ ((parsePath repl).segs ++ restSegs)) := by
      rw [hrb, resolveP, if_neg (by simp)]
      simp only
      rw [resolveSegs_good_nil _ (good_append hgb hgood), resolveSegs_good _ hgoodRest]
      rw [List.append_assoc]
    show relativeP f.base (resolveP (resolveP f.base (parsePath repl))
      (NPath.mk false restSegs)) = _
    rw [hrp, relativeP]
    simp only
    rw [resolveSegs_good_nil f.base.segs hgb,
      resolveSegs_good_nil _ (good_append hgb (good_append hgood hgoodRest)),
      relSegs_append]

/-- Witness for C6: the filter from the claim maps src/x.js to out/x.js;
lib/y.js, a trailing-separator key and an absolute key leave the file
unchanged. -/
theorem pathFilterMapping_witness :
    Good (vrelative (VFile.mk (NPath.mk true ["B"])
        (NPath.mk true ["B", "src", "x.js"]) none)).segs
    ∧ filterOutput (.mapping [("src", some "out")])
        (VFile.mk (NPath.mk true ["B"]) (NPath.mk true ["B", "src", "x.js"]) none)
      = .ok (some (objFilterLoop
          (VFile.mk (NPath.mk true ["B"]) (NPath.mk true ["B", "src", "x.js"]) none)
          [("src", some "out")]))
    ∧ vrelative (objFilterLoop
        (VFile.mk (NPath.mk true ["B"]) (NPath.mk true ["B", "src", "x.js"]) none)
        [("src", some "out")])
      = NPath.mk false ["out", "x.js"]
    ∧ objFilterLoop
        (VFile.mk (NPath.mk true ["B"]) (NPath.mk true ["B", "lib", "y.js"]) none)
        [("src", some "out")]
      = VFile.mk (NPath.mk true ["B"]) (NPath.mk true ["B", "lib", "y.js"]) none
    ∧ objFilterLoop
        (VFile.mk (NPath.mk true ["B"]) (NPath.mk true ["B", "src", "x.js"]) none)
        [("src/", some "out")]
      = VFile.mk (NPath.mk true ["B"]) (NPath.mk true ["B", "src", "x.js"]) none
    ∧ objFilterLoop
        (VFile.mk (NPath.mk true ["B"]) (NPath.mk true ["B", "src", "x.js"]) none)
        [("/src", some "out")]
      = VFile.mk (NPath.mk true ["B"]) (NPath.mk true ["B", "src", "x.js"]) none := by
  refine ⟨by decide, ?_, ?_, ?_, ?_, ?_⟩
  · exact (pathFilterMapping_spec [("src", some "out")]
      (VFile.mk (NPath.mk true ["B"]) (NPath.mk true ["B", "src", "x.js"]) none)
      rfl (by decide) (by decide)).1
  · exact (pathFilterMapping_spec [("src", some "out")]
      (VFile.mk (NPath.mk true ["B"]) (NPath.mk true ["B", "src", "x.js"]) none)
      rfl (by decide) (by decide)).2.2 [] "src" "out" [] ["src"] rfl (by decide)
      (by decide) (by decide) (by decide) (by decide) (by decide) (by decide)
      (by decide) (by decide)
  · exact (pathFilterMapping_spec [("src", some "out")]
      (VFile.mk (NPath.mk true ["B"]) (NPath.mk true ["B", "lib", "y.js"]) none)
      rfl (by decide) (by decide)).2.1 (by decide)
  · exact (pathFilterMapping_spec [("src/", some "out")]
      (VFile.mk (NPath.mk true ["B"]) (NPath.mk true ["B", "src", "x.js"]) none)
      rfl (by decide) (by decide)).2.1 (by decide)
  · exact (pathFilterMapping_spec [("/src", some "out")]
      (VFile.mk (NPath.mk true ["B"]) (NPath.mk true ["B", "src", "x.js"]) none)
      rfl (by decide) (by decide)).2.1 (by decide)

/-- **C7**: the source-map rewrite stage is piped exactly when source maps
are enabled and no sourceRoot override is configured, and every rewritten
sources entry, resolved against the directory of the artifact's new
location, denotes the same absolute file as the original entry resolved
against the directory of the original location. -/
theorem sourcemapRoundtrip_spec (o : TscOptions) (f : MapFile)
    (hb : f.isBuffer = true) (ht : jsMapTest f.path = true)
    (hpa : f.path.abs = true) (hpg : Good f.path.segs)
    (hoa : f.originalPath.abs = true) :
    (Stage.fixSourcemap ∈ pipelineStages o
      ↔ (o.sourceMap = true ∧ truthyS o.sourceRoot = false))
    ∧ ∀ p ∈ ((fixSourcemapFile f).sources.zip f.sources),
        resolveP (dirnameP f.path) p.1 = resolveP (dirnameP f.originalPath) p.2 := by
  constructor
  · simp [pipelineStages, mem_ite_nil]
  · intro p hp
    rcases hsl : f.sources with _ | ⟨a, as⟩
    · simp [fixSourcemapFile, hsl] at hp
    · have hlen : 0 < f.sources.length := by rw [hsl]; simp
      rw [fixSourcemapFile, if_neg (by simp [hb, ht]), if_pos hlen] at hp
      simp only at hp
      obtain ⟨hpe, _⟩ := mem_zip_map_self _ f.sources p hp
      rw [hpe]
      exact resolveP_relativeP (dirnameP f.path) (resolveP (dirnameP f.originalPath) p.2)
        (by rw [dirnameP]; exact hpa) (good_dirnameP f.path hpg)
        (resolveP_abs _ _ (by rw [dirnameP]; exact hoa))
        (resolveP_good _ _)

/-- Witness for C7: one relocated map artifact with one sources entry. -/
theorem sourcemapRoundtrip_witness :
    jsMapTest (NPath.mk true ["out", "a.js.map"]) = true
    ∧ (Stage.fixSourcemap ∈ pipelineStages (mkOptions { sourceMap := some true })
        ↔ ((mkOptions { sourceMap := some true }).sourceMap = true
            ∧ truthyS (mkOptions { sourceMap := some true }).sourceRoot = false))
    ∧ ∀ p ∈ ((fixSourcemapFile (MapFile.mk (NPath.mk true ["out", "a.js.map"])
        (NPath.mk true ["tmp", "d", "a.js.map"]) true
        [NPath.mk false ["a.ts"]])).sources.zip
          (MapFile.mk (NPath.mk true ["out", "a.js.map"])
            (NPath.mk true ["tmp", "d", "a.js.map"]) true
            [NPath.mk false ["a.ts"]]).sources),
        resolveP (dirnameP (NPath.mk true ["out", "a.js.map"])) p.1
          = resolveP (dirnameP (NPath.mk true ["tmp", "d", "a.js.map"])) p.2 := by
  refine ⟨by decide, ?_, ?_⟩
  · exact (sourcemapRoundtrip_spec (mkOptions { sourceMap := some true })
      (MapFile.mk (NPath.mk true ["out", "a.js.map"])
        (NPath.mk true ["tmp", "d", "a.js.map"]) true [NPath.mk false ["a.ts"]])
      rfl (by decide) rfl (by decide) rfl).1
  · exact (sourcemapRoundtrip_spec (mkOptions { sourceMap := some true })
      (MapFile.mk (NPath.mk true ["out", "a.js.map"])
        (NPath.mk true ["tmp", "d", "a.js.map"]) true [NPath.mk false ["a.ts"]])
      rfl (by decide) rfl (by decide) rfl).2

/-- Witness for C10: the lowercase spelling alone. -/
theorem sourcemapSpelling_witness :
    (mkOptions { sourcemap := some true }).sourceMap = true
    ∧ (mkOptions { sourcemap := some true }).sourcemap = false
    ∧ "--sourcemap" ∈ buildTscArguments (mkOptions { sourcemap := some true }) none none none []
    ∧ Stage.fixSourcemap ∈ pipelineStages (mkOptions { sourcemap := some true }) :=
  ⟨rfl, rfl,
   (sourcemapSpelling_spec { sourcemap := some true } none none none []).2.2.1 rfl,
   (sourcemapSpelling_spec { sourcemap := some true } none none none []).2.2.2 rfl rfl⟩

end GulpTsc
